import Mathlib

/-
Shallow embedding of ethsync.py (ETH-transactions-storage), the Ethereum
transaction indexer.  Pure data is modelled directly; the PostgreSQL table
public.ethtxs is a list of rows; because the source sets conn.autocommit =
True (lines 77 and 179), every successful INSERT is immediately durable, so
the list of rows IS the committed store at every point.  Exceptions raised
by the database driver or by the web3 mapping accesses are modelled with an
explicit error value that aborts the surrounding computation, carrying the
rows committed so far.
-/

namespace EthSync

/-- Row of table public.ethtxs (source line 150: columns time, txfrom, txto,
value, gas, gasprice, block, txhash, contract_to, contract_value, status). -/
structure Record where
  time : Nat
  txfrom : String
  txto : String
  value : Nat
  gas : Nat
  gasprice : Nat
  block : Nat
  txhash : String
  contract_to : String
  contract_value : String
  status : Bool
deriving DecidableEq, Repr

/-- Transaction as returned by the node, merged with its receipt (the source
fetches the receipt per transaction at line 106; gasUsed and status are the
receipt fields used).  The hash, to and from fields hold the already
hex-rendered strings.  A field of value none models a mapping key whose
access raises (the except branches at source lines 135-144); a transaction
the node serves normally has both some. -/
structure Tx where
  hash : String
  value : Nat
  input : String
  «from» : Option String
  «to» : Option String
  gasPrice : Nat
  gasUsed : Nat
  status : Bool
deriving DecidableEq, Repr

/-- Block as returned by web3.eth.getBlock(h, True) (source line 203); hash
and parentHash hold the .hex() renderings used by the source. -/
structure Block where
  number : Nat
  hash : String
  parentHash : String
  timestamp : Nat
  transactions : List Tx
deriving DecidableEq, Repr

/-- The 4-byte transfer(address,uint256) selector literal of source line 116. -/
def selector : String := "0xa9059cbb"

/-- The 24-zero pad literal of source line 128. -/
def zeros24 : String := "000000000000000000000000"

/-- Python s.startswith(pre) (source lines 116, 128, 133), stated on the
character lists so that it evaluates inside the kernel. -/
def pyStartsWith (s pre : String) : Bool := pre.toList.isPrefixOf s.toList

/-- Python slice s[-a:-b] for 0 < b < a: both indices are taken from the end
of the string and clamped at 0, exactly as Python clamps negative indices. -/
def pySliceNeg (s : String) (a b : Nat) : String :=
  let L := s.toList.length
  (((s.toList).drop (L - min a L)).take ((L - min b L) - (L - min a L))).asString

/-- Python slice s[-a:]: the last a characters (the whole string when it is
shorter than a). -/
def pySliceLast (s : String) (a : Nat) : String :=
  ((s.toList).drop (s.toList.length - min a s.toList.length)).asString

/-- Token-transfer decoding of source lines 113-127: when the input starts
with the transfer selector, contract_to is "0x" ++ input[-104:-64] and
contract_value is input[-64:]; otherwise both stay empty strings. -/
def decodeContract (inputinfo : String) : String × String :=
  if pyStartsWith inputinfo selector then
    ( "0x" ++ pySliceNeg inputinfo 104 64, pySliceLast inputinfo 64)
  else
    ( "", "")

/-- Data-quality warning of source lines 128-131: inside the selector branch
the source logs a warning when input[-128:-104] is not 24 zeros.  Logging is
modelled as this Bool flag; it does not influence the extracted values. -/
def paddingWarning (inputinfo : String) : Bool :=
  pyStartsWith inputinfo selector && decide (pySliceNeg inputinfo 128 104 ≠ zeros24)

/-- Errors that abort insertTxsFromBlock: unboundLocal models the
UnboundLocalError raised at source line 149 when the INSERT argument tuple
references the local fr (or to) that was never assigned because every
attempt so far raised in the except branches of lines 135-144; insertFailed
models cur.execute itself raising on a database write failure.  Either
exception propagates out of the function (there is no handler around the
INSERT), aborting the rest of the block. -/
inductive InsErr where
  | unboundLocal
  | insertFailed
deriving DecidableEq, Repr

/-- Mutable state of one insertTxsFromBlock call: the committed rows, plus
the current values of the function-local variables fr and to (none while
never assigned; they keep their previous value when the mapping access of a
later transaction raises, which is how a stale value can be inserted). -/
structure InsState where
  db : List Record
  fr : Option String
  «to» : Option String
deriving DecidableEq, Repr

/-- Body of the per-transaction loop of insertTxsFromBlock (source lines
104-164) for one transaction.  The fail flag models cur.execute raising on
this particular INSERT.  Order is the source's: the zero-value filter of
line 133 runs before the from/to accesses of lines 135-144, so skipped
transactions do not touch fr/to; the INSERT evaluates fr and to, raising
UnboundLocalError when the referenced local was never assigned. -/
def insertTxStep (fail : Bool) (blockid time : Nat) (st : InsState) (tr : Tx) :
    InsState × Option InsErr :=
  let txhash := tr.hash
  let value := tr.value
  let inputinfo := tr.input
  let cv := decodeContract inputinfo
  if value = 0 ∧ pyStartsWith inputinfo selector = false then
    (st, none)
  else
    let fr : Option String := match tr.«from» with
      | some v => some v
      | none => st.fr
    let «to» : Option String := match tr.«to» with
      | some v => some v
      | none => st.«to»
    match fr, «to» with
    | some f, some t =>
        if fail then
          ({ db := st.db, fr := fr, «to» := «to» }, some InsErr.insertFailed)
        else
          ({ db := st.db ++ [{ time := time, txfrom := f, txto := t, value := value,
                               gas := tr.gasUsed, gasprice := tr.gasPrice,
                               block := blockid, txhash := txhash,
                               contract_to := cv.1, contract_value := cv.2,
                               status := tr.status }],
             fr := fr, «to» := «to» }, none)
    | _, _ => ({ db := st.db, fr := fr, «to» := «to» }, some InsErr.unboundLocal)

/-- Transaction loop of insertTxsFromBlock, indexed so that the failure
oracle can target an individual INSERT; stops at the first raised exception,
returning the rows committed so far (autocommit). -/
def insertTxsGo (failAt : Nat → Bool) (blockid time : Nat) :
    Nat → List Tx → InsState → InsState × Option InsErr
  | _, [], st => (st, none)
  | i, tr :: rest, st =>
      match insertTxStep (failAt i) blockid time st tr with
      | (st', none) => insertTxsGo failAt blockid time (i + 1) rest st'
      | (st', some err) => (st', some err)

/-- insertTxsFromBlock (source lines 101-164): inserts the qualifying
transactions of one block, threading the function-local fr/to (fresh and
unassigned at every call). -/
def insertTxsFromBlock (failAt : Nat → Bool) (block : Block) (st : InsState) :
    InsState × Option InsErr :=
  insertTxsGo failAt block.number block.timestamp 0 block.transactions st

/-- SELECT Max(block) from public.ethtxs (source line 185): NULL on an empty
table, otherwise the greatest block value among the rows. -/
def maxBlock (db : List Record) : Option Nat :=
  db.foldl (fun acc r =>
    match acc with
    | none => some r.block
    | some m => some (max m r.block)) none

/-- Startup tail-trim of source lines 85-87: DELETE FROM public.ethtxs WHERE
block = (SELECT Max(block) from public.ethtxs).  On an empty table the
subselect is NULL and nothing is deleted. -/
def tailTrim (db : List Record) : List Record :=
  match maxBlock db with
  | none => db
  | some m => db.filter (fun r => !(r.block == m))

/-- delete_last_blocks_from_db (source lines 166-171): DELETE from ethtxs
CASCADE WHERE block > begin_block AND block <= end_block.  The source wraps
the statement in try/except that only logs; the model lets it succeed. -/
def delete_last_blocks_from_db (db : List Record) (begin_block end_block : Int) :
    List Record :=
  db.filter (fun r =>
    !(decide (begin_block < (r.block : Int)) && decide ((r.block : Int) ≤ end_block)))

/-- In-memory state of the while-True loop of source lines 173-225: the
committed rows and the latest_hash variable initialised to the empty string
at line 173 and updated at line 222. -/
structure SyncState where
  db : List Record
  latest_hash : String
deriving DecidableEq, Repr

/-- Safe head of source line 191: endblock = int(web3.eth.blockNumber) -
int(confirmationBlocks). -/
def endblockOf (head conf : Int) : Int := head - conf

/-- Body of the for-loop of source lines 202-222, over the remaining list of
block heights.  chain is web3.eth.getBlock (height with full transactions);
failAt gives the INSERT failure oracle per height and transaction index.  At
the safe-head boundary (blockHeight == endblock, line 204) a parent-hash
mismatch runs delete_last_blocks_from_db(blockHeight-1-reorg_blocks,
blockHeight-1) and continues without processing the block (lines 205-209);
otherwise the block is processed (insertTxsFromBlock when it has
transactions) and latest_hash becomes its hash (line 222).  An exception
from insertTxsFromBlock propagates, abandoning the pass with the rows
committed so far. -/
def syncLoopGo (chain : Nat → Block) (failAt : Nat → Nat → Bool) (reorg_blocks : Nat)
    (endblock : Int) : List Nat → SyncState → SyncState × Option InsErr
  | [], st => (st, none)
  | blockHeight :: rest, st =>
      let block := chain blockHeight
      if (blockHeight : Int) = endblock ∧ st.latest_hash ≠ block.parentHash then
        syncLoopGo chain failAt reorg_blocks endblock rest
          { st with db := (delete_last_blocks_from_db st.db
              ((blockHeight : Int) - 1 - reorg_blocks) ((blockHeight : Int) - 1)) }
      else
        match (if 0 < block.transactions.length then
                 insertTxsFromBlock (failAt blockHeight) block
                   { db := st.db, fr := none, «to» := none }
               else
                 ({ db := st.db, fr := none, «to» := none }, none)) with
        | (ist, none) =>
            syncLoopGo chain failAt reorg_blocks endblock rest
              { db := ist.db, latest_hash := block.hash }
        | (ist, some err) => ({ db := ist.db, latest_hash := st.latest_hash }, some err)

/-- Heights fetched by one pass (source lines 185-202): from maxblockindb+1
(max(block), or int(startBlock) on an empty index, lines 186-189) up to and
including endblock, as in range(maxblockindb + 1, endblock + 1). -/
def passFetchHeights (startBlock : Nat) (head conf : Int) (db : List Record) :
    List Nat :=
  let maxblockindb := (maxBlock db).getD startBlock
  List.range' (maxblockindb + 1) ((endblockOf head conf - maxblockindb).toNat)

/-- One pass of the while-True loop of source lines 175-225 (one iteration:
re-read max(block), compute endblock, run the for-loop over the missing
heights). -/
def syncPass (chain : Nat → Block) (failAt : Nat → Nat → Bool) (startBlock : Nat)
    (head conf : Int) (reorg_blocks : Nat) (st : SyncState) :
    SyncState × Option InsErr :=
  syncLoopGo chain failAt reorg_blocks (endblockOf head conf)
    (passFetchHeights startBlock head conf st.db) st

/-- Python value of either int or str type, as bound by the environment
reads of source lines 26-31. -/
inductive PyVal where
  | int (n : Int)
  | str (s : String)
deriving DecidableEq, Repr

/-- environ.get(name) or default (source lines 26-30): Python `or` keeps the
environment value only when it is truthy, i.e. a nonempty string; a missing
variable (None) or an empty string falls through to the default. -/
def getEnvOr (env : Option String) (dflt : PyVal) : PyVal :=
  match env with
  | some s => if s = "" then dflt else PyVal.str s
  | none => dflt

/-- Source line 27: confirmationBlocks = environ.get("CONFIRMATIONS_BLOCK")
or "0" — the default is the STRING "0" (later converted with int() at line
191). -/
def confirmationBlocks (env : Option String) : PyVal := getEnvOr env (PyVal.str "0")

/-- Source line 28: reorg_blocks = environ.get("CONFIRMATIONS_BLOCK") or 10
— the default is the INT 10, while a set nonempty variable stays a str. -/
def reorg_blocks (env : Option String) : PyVal := getEnvOr env (PyVal.int 10)

/-- Python int - PyVal: subtracting a str from an int raises TypeError,
modelled as the error case. -/
def pySub (a : Int) (b : PyVal) : Except Unit Int :=
  match b with
  | PyVal.int n => Except.ok (a - n)
  | PyVal.str _ => Except.error ()

/-- Evaluation of the first argument expression blockHeight-1-reorg_blocks
of the delete_last_blocks_from_db call at source line 208, with reorg_blocks
bound from the environment as at line 28.  The expression is evaluated at
the call site, outside any try block, so a TypeError propagates out of the
while-True loop and terminates the process. -/
def reorgDeleteBeginArg (blockHeight : Int) (env : Option String) : Except Unit Int :=
  pySub (blockHeight - 1) (reorg_blocks env)

/-- Spec-side decoder field (spec section 4.3, stated for comparison with the
code): contractTo is "0x" followed by the lower 40 hex characters of the
FIRST 32-byte argument slot; that slot occupies characters 10 to 74 of the
input (after "0x" and the 8 selector characters), so its lower 40 characters
start at position 34. -/
def specContractTo (s : String) : String :=
  "0x" ++ ((s.toList.drop 34).take 40).asString

/-- Spec-side decoder field (spec section 4.3): contractValue is the raw 64
hex characters of the SECOND 32-byte argument slot, characters 74 to 138 of
the input. -/
def specContractValue (s : String) : String :=
  ((s.toList.drop 74).take 64).asString

/-- Spec-side leading pad (spec section 4.3): the 24 leading hex characters
of the first argument slot, characters 10 to 34 of the input. -/
def specLeadingPad (s : String) : String :=
  ((s.toList.drop 10).take 24).asString

/-- Failure oracle for normal operation: no INSERT raises. -/
def noFail : Nat → Nat → Bool := fun _ _ => false

/-- Failure oracle for a single block under which no INSERT raises. -/
def noFail1 : Nat → Bool := fun _ => false

/-- Failure oracle under which the second INSERT of a block (index 1)
raises a database error. -/
def failSecond : Nat → Bool := fun i => i == 1

/-- Well-formed plain value transfer used by the concrete scenarios. -/
def txPay : Tx :=
  { hash := "0xtp", value := 5, input := "0x", «from» := some "0xa",
    «to» := some "0xb", gasPrice := 1, gasUsed := 1, status := true }

/-- Stored row for block 5 used by the restart scenarios. -/
def rec5 : Record :=
  { time := 0, txfrom := "0xa", txto := "0xb", value := 1, gas := 1,
    gasprice := 1, block := 5, txhash := "0xt5", contract_to := "",
    contract_value := "", status := true }

/-- Stored row for block 6 used by the restart scenarios. -/
def rec6 : Record :=
  { time := 0, txfrom := "0xa", txto := "0xb", value := 1, gas := 1,
    gasprice := 1, block := 6, txhash := "0xt6", contract_to := "",
    contract_value := "", status := true }

/-- Store holding blocks 5 and 6, the latter playing the possibly partial
top block of a prior run. -/
def wdb7 : List Record := [rec5, rec6]

/-- Fully parent-consistent chain with no transactions: the hash of block h
is "0xh" followed by h, and each parent hash points at the previous one. -/
def wChain (h : Nat) : Block :=
  { number := h, hash := "0xh" ++ toString h,
    parentHash := "0xh" ++ toString (h - 1), timestamp := 0, transactions := [] }

/-- Chain for the continuity counterexample: block 102 does not extend block
101 (its parentHash is a fork, differing from the hash of 101), while block
103, the safe-head boundary, extends 102 normally.  Blocks 101 and 102 each
carry one qualifying transaction so that they leave rows in the store. -/
def bcex (h : Nat) : Block :=
  if h = 101 then
    { number := 101, hash := "0xh101", parentHash := "0xh100", timestamp := 0,
      transactions := [txPay] }
  else if h = 102 then
    { number := 102, hash := "0xh102", parentHash := "0xforked", timestamp := 0,
      transactions := [txPay] }
  else
    { number := h, hash := "0xh103", parentHash := "0xh102", timestamp := 0,
      transactions := [] }

/-- Block with two qualifying transactions, for the write-failure scenario. -/
def blockTwoTx : Block :=
  { number := 7, hash := "0xb7", parentHash := "0xb6", timestamp := 9,
    transactions := [{ txPay with hash := "0xq1" }, { txPay with hash := "0xq2" }] }

/-- Transaction whose from access raises (missing field), value positive. -/
def txNoFrom : Tx :=
  { hash := "0xm1", value := 4, input := "0x", «from» := none,
    «to» := some "0xb", gasPrice := 1, gasUsed := 1, status := true }

/-- Block whose FIRST transaction misses from, followed by a well-formed
one: the INSERT of the first references the never-assigned local fr. -/
def blockNoFromFirst : Block :=
  { number := 8, hash := "0xb8", parentHash := "0xb7", timestamp := 9,
    transactions := [txNoFrom, txPay] }

/-- Block whose first transaction binds fr to 0xalice and whose SECOND one
misses from: its INSERT reuses the stale fr. -/
def blockStaleFrom : Block :=
  { number := 9, hash := "0xb9", parentHash := "0xb8", timestamp := 9,
    transactions := [{ txPay with hash := "0xs1", «from» := some "0xalice" },
                     { txNoFrom with hash := "0xs2" }] }

/-- The 40-character address argument of the decoder scenarios. -/
def addr40 : String := "aaaaaaaaaaaaaaaaaaaaaaaaaaaaaaaaaaaaaaaa"

/-- The 64-character value argument of the decoder scenarios. -/
def val64 : String :=
  "bbbbbbbbbbbbbbbbbbbbbbbbbbbbbbbbbbbbbbbbbbbbbbbbbbbbbbbbbbbbbbbb"

/-- Well-formed transfer calldata with two trailing extra characters: a
transaction input that starts with the selector but is longer than the
canonical 138 characters. -/
def cexInput : String := selector ++ zeros24 ++ addr40 ++ val64 ++ "cc"

/-- Canonical-length transfer calldata whose pad bytes are not zero. -/
def canonInput : String :=
  selector ++ "ff0000000000000000000000" ++ addr40 ++ val64

/-- Zero-value transaction whose input is not a transfer call. -/
def txZero : Tx :=
  { hash := "0xz", value := 0, input := "0xdeadbeef", «from» := some "0xa",
    «to» := some "0xb", gasPrice := 1, gasUsed := 1, status := true }

/-- One step of the transaction loop either leaves the committed rows alone
or appends exactly one row, and that row belongs to the current block. -/
theorem insertTxStep_db (fail : Bool) (blockid time : Nat) (st : InsState) (tr : Tx) :
    (insertTxStep fail blockid time st tr).1.db = st.db
    ∨ ∃ r : Record, (insertTxStep fail blockid time st tr).1.db = st.db ++ [r]
        ∧ r.block = blockid := by
  simp only [insertTxStep]
  split
  · exact Or.inl rfl
  · split
    · split
      · exact Or.inl rfl
      · exact Or.inr ⟨_, rfl, rfl⟩
    · exact Or.inl rfl

/-- The transaction loop only appends rows of the current block to the
store, whether it returns normally or aborts with an exception: committed
rows are never removed or rewritten (autocommit). -/
theorem insertTxsGo_db_prefix (failAt : Nat → Bool) (blockid time : Nat) :
    ∀ (txs : List Tx) (i : Nat) (st : InsState),
      ∃ extra, (insertTxsGo failAt blockid time i txs st).1.db = st.db ++ extra
        ∧ ∀ r ∈ extra, r.block = blockid := by
  intro txs
  induction txs with
  | nil =>
      intro i st
      refine ⟨[], ?_, ?_⟩
      · simp [insertTxsGo]
      · simp
  | cons tr rest ih =>
      intro i st
      have hstep := insertTxStep_db (failAt i) blockid time st tr
      rcases heq : insertTxStep (failAt i) blockid time st tr with ⟨st', err⟩
      rw [heq] at hstep
      simp only at hstep
      rw [insertTxsGo, heq]
      cases err with
      | none =>
          obtain ⟨extra, hdb, hall⟩ := ih (i + 1) st'
          dsimp only
          rcases hstep with h1 | ⟨r, h1, hr⟩
          · refine ⟨extra, ?_, hall⟩
            rw [hdb, h1]
          · refine ⟨r :: extra, ?_, ?_⟩
            · rw [hdb, h1]
              simp
            · intro x hx
              rcases List.mem_cons.mp hx with hx | hx
              · rw [hx]
                exact hr
              · exact hall x hx
      | some e =>
          dsimp only
          rcases hstep with h1 | ⟨r, h1, hr⟩
          · exact ⟨[], by simp [h1], by simp⟩
          · refine ⟨[r], by simp [h1], ?_⟩
            intro x hx
            rcases List.mem_cons.mp hx with hx | hx
            · rw [hx]
              exact hr
            · cases hx

/-- insertTxsFromBlock form of the prefix property. -/
theorem insertTxsFromBlock_db_prefix (failAt : Nat → Bool) (block : Block) (st : InsState) :
    ∃ extra, (insertTxsFromBlock failAt block st).1.db = st.db ++ extra
      ∧ ∀ r ∈ extra, r.block = block.number :=
  insertTxsGo_db_prefix failAt block.number block.timestamp block.transactions 0 st

/-- Processing branch of one for-loop iteration (lines 211-219): whether or
not the block has transactions, and whether or not an INSERT raises, the
store is only extended, by rows of the fetched block. -/
theorem syncInsert_db_prefix (chain : Nat → Block) (failAt : Nat → Nat → Bool)
    (h : Nat) (db : List Record) :
    ∃ extra,
      (if 0 < (chain h).transactions.length then
         insertTxsFromBlock (failAt h) (chain h) { db := db, fr := none, «to» := none }
       else ({ db := db, fr := none, «to» := none }, none)).1.db = db ++ extra
      ∧ ∀ x ∈ extra, x.block = (chain h).number := by
  by_cases hlen : 0 < (chain h).transactions.length
  · rw [if_pos hlen]
    exact insertTxsFromBlock_db_prefix (failAt h) (chain h)
      { db := db, fr := none, «to» := none }
  · rw [if_neg hlen]
    exact ⟨[], by simp, by simp⟩

/-- Catch-up preservation: running the for-loop over the contiguous height
range from a > M to the boundary endblock, against a chain whose block
numbers match the requested heights and whose parent hashes are consistent,
never touches a stored row of a block at or below M.  The invariant carried
along is that on reaching the boundary the latest_hash recorded from the
previous height matches the boundary block's parentHash, so the rollback
branch of lines 204-209 cannot fire. -/
theorem syncLoopGo_preserve (chain : Nat → Block) (failAt : Nat → Nat → Bool)
    (reorg : Nat) (e : Int) (M : Nat)
    (hnum : ∀ h, (chain h).number = h)
    (hcons : ∀ h, (chain (h + 1)).parentHash = (chain h).hash) :
    ∀ (n a : Nat) (st : SyncState), M < a → ((a : Int) + n = e + 1) →
      ((a : Int) = e → st.latest_hash = (chain (a - 1)).hash) →
      ∀ r : Record, r.block ≤ M →
        (r ∈ (syncLoopGo chain failAt reorg e (List.range' a n) st).1.db ↔ r ∈ st.db) := by
  intro n
  induction n with
  | zero =>
      intro a st _ _ _ r _
      simp [syncLoopGo]
  | succ n ih =>
      intro a st hMa hae hinv r hrM
      have h0 : 0 < a := Nat.lt_of_le_of_lt (Nat.zero_le M) hMa
      have hpar : (chain a).parentHash = (chain (a - 1)).hash := by
        have hc := hcons (a - 1)
        have ha1 : a - 1 + 1 = a := by omega
        rwa [ha1] at hc
      rw [List.range'_succ, syncLoopGo]
      rw [if_neg (by
        rintro ⟨hae', hne⟩
        exact hne ((hinv hae').trans hpar.symm))]
      obtain ⟨extra, hdb, hall⟩ := syncInsert_db_prefix chain failAt a st.db
      rcases hins : (if 0 < (chain a).transactions.length then
          insertTxsFromBlock (failAt a) (chain a) { db := st.db, fr := none, «to» := none }
        else ({ db := st.db, fr := none, «to» := none }, none)) with ⟨ist, err⟩
      rw [hins] at hdb
      simp only at hdb
      have hnotin : r ∉ extra := by
        intro hx
        have := hall r hx
        rw [hnum a] at this
        omega
      have hist : r ∈ ist.db ↔ r ∈ st.db := by
        rw [hdb, List.mem_append]
        exact or_iff_left hnotin
      cases err with
      | none =>
          dsimp only
          have hrec := ih (a + 1) { db := ist.db, latest_hash := (chain a).hash }
            (Nat.lt_succ_of_lt hMa) (by push_cast at hae ⊢; omega)
            (fun _ => by simp) r hrM
          exact hrec.trans hist
      | some err =>
          dsimp only
          exact hist

/-- Claim C1: in a pass whose for-loop reaches the safe-head boundary height
endblock with a recorded latest_hash differing from the fetched boundary
block's parentHash, the engine deletes exactly the stored rows of blocks in
(lastIndexed - reorg_blocks, lastIndexed] where lastIndexed = endblock - 1,
processes nothing at the boundary (rows only filtered, latest_hash kept),
and the next pass fetches from the new max(block) + 1 upward. -/
theorem reorg_boundary_rollback (chain : Nat → Block) (failAt : Nat → Nat → Bool)
    (reorg_blocks e : Nat) (st : SyncState)
    (hne : st.latest_hash ≠ (chain e).parentHash) :
    syncLoopGo chain failAt reorg_blocks (e : Int) [e] st
      = ({ db := (delete_last_blocks_from_db st.db ((e : Int) - 1 - reorg_blocks)
             ((e : Int) - 1)),
           latest_hash := st.latest_hash }, none)
    ∧ ∀ (startBlock : Nat) (head conf : Int),
        passFetchHeights startBlock head conf
            (delete_last_blocks_from_db st.db ((e : Int) - 1 - reorg_blocks) ((e : Int) - 1))
          = List.range'
              ((maxBlock (delete_last_blocks_from_db st.db ((e : Int) - 1 - reorg_blocks)
                  ((e : Int) - 1))).getD startBlock + 1)
              ((endblockOf head conf -
                  ((maxBlock (delete_last_blocks_from_db st.db ((e : Int) - 1 - reorg_blocks)
                      ((e : Int) - 1))).getD startBlock : Int)).toNat) := by
  constructor
  · rw [syncLoopGo, if_pos ⟨rfl, hne⟩, syncLoopGo]
  · intro startBlock head conf
    rfl

/-- Witness for C1 at a concrete store and chain. -/
theorem reorg_boundary_rollback_witness :
    syncLoopGo wChain noFail 10 ((6 : Nat) : Int) [6] { db := [rec5], latest_hash := "" }
      = ({ db := (delete_last_blocks_from_db [rec5] (((6 : Nat) : Int) - 1 - 10)
             (((6 : Nat) : Int) - 1)),
           latest_hash := "" }, none) :=
  (reorg_boundary_rollback wChain noFail 10 6 { db := [rec5], latest_hash := "" }
    (by decide)).1

/-- Claim C2, counterexample: with autocommit, a block of two qualifying
transactions whose second INSERT fails leaves the first row committed, the
store nonempty, and max(block) already answering with the failed block —
the write was not atomic per block. -/
theorem partial_block_commit_cex :
    (insertTxsFromBlock failSecond blockTwoTx { db := [], fr := none, «to» := none }).2
        = some InsErr.insertFailed
    ∧ (insertTxsFromBlock failSecond blockTwoTx { db := [], fr := none, «to» := none }).1.db
        ≠ []
    ∧ maxBlock
        (insertTxsFromBlock failSecond blockTwoTx { db := [], fr := none, «to» := none }).1.db
        = some 7 := by decide

/-- Claim C2, amended: rows are committed one INSERT at a time (autocommit);
a failed write aborts the rest of the block but the rows already committed
stay in the store; all of them carry the processed block's number, which is
what the startup tail-trim deletes on the next run. -/
theorem inserts_commit_per_record (failAt : Nat → Bool) (block : Block) (st : InsState) :
    ∃ extra, (insertTxsFromBlock failAt block st).1.db = st.db ++ extra
      ∧ extra.all (fun r => r.block == block.number) = true := by
  obtain ⟨extra, hdb, hall⟩ := insertTxsFromBlock_db_prefix failAt block st
  refine ⟨extra, hdb, ?_⟩
  rw [List.all_eq_true]
  intro x hx
  simpa using hall x hx

/-- Claim C3 (code bug), evaluation at the failing inputs: a block whose
first transaction misses the from field aborts whole-block processing with
UnboundLocalError at the INSERT (the well-formed second transaction is never
persisted), and a block whose second transaction misses from silently
persists it with the stale from value bound by the first transaction —
instead of log-and-skip of the single malformed transaction. -/
theorem missing_from_aborts_block_eval :
    ((insertTxsFromBlock noFail1 blockNoFromFirst { db := [], fr := none, «to» := none }).1.db
        = []
      ∧ (insertTxsFromBlock noFail1 blockNoFromFirst { db := [], fr := none, «to» := none }).2
          = some InsErr.unboundLocal)
    ∧ (insertTxsFromBlock noFail1 blockStaleFrom { db := [], fr := none, «to» := none }).1.db.any
        (fun r => r.txhash == "0xs2" && r.txfrom == "0xalice") = true := by decide

/-- Claim C5: a transaction with native value 0 whose input is not a
transfer call is discarded without any store change, while a transaction
with positive value is persisted as exactly one new row regardless of its
input (given the from and to fields the data model requires and a
non-failing INSERT). -/
theorem zero_value_filter (fail : Bool) (blockid time : Nat) (st : InsState) (tr : Tx)
    (f t : String) :
    (tr.value = 0 → pyStartsWith tr.input selector = false →
        insertTxStep fail blockid time st tr = (st, none))
    ∧ (0 < tr.value → tr.«from» = some f → tr.«to» = some t →
        ∃ r : Record, (insertTxStep false blockid time st tr).1.db = st.db ++ [r]
          ∧ r.txhash = tr.hash ∧ r.block = blockid) := by
  constructor
  · intro h0 hsel
    simp only [insertTxStep]
    rw [if_pos ⟨h0, hsel⟩]
  · intro hv hf ht
    simp only [insertTxStep, hf, ht]
    rw [if_neg (by
      rintro ⟨h0, _⟩
      omega)]
    exact ⟨_, rfl, rfl, rfl⟩

/-- Witness for C5 at a concrete zero-value call and a concrete payment. -/
theorem zero_value_filter_witness :
    (insertTxStep false 7 9 { db := [], fr := none, «to» := none } txZero
        = ({ db := [], fr := none, «to» := none }, none))
    ∧ ∃ r : Record,
        (insertTxStep false 7 9 { db := [], fr := none, «to» := none } txPay).1.db
          = [] ++ [r] ∧ r.txhash = txPay.hash ∧ r.block = 7 :=
  ⟨(zero_value_filter false 7 9 { db := [], fr := none, «to» := none } txZero
      "0xa" "0xb").1 (by decide) (by decide),
   (zero_value_filter false 7 9 { db := [], fr := none, «to» := none } txPay
      "0xa" "0xb").2 (by decide) rfl rfl⟩

/-- Claim C8: the heights fetched by a pass are all at or below the safe
head endblock = head - confirmations of source line 191. -/
theorem fetch_below_safe_head (startBlock : Nat) (head conf : Int) (db : List Record) :
    ∀ h ∈ passFetchHeights startBlock head conf db, (h : Int) ≤ endblockOf head conf := by
  intro h hmem
  simp only [passFetchHeights, endblockOf, List.mem_range'_1] at hmem
  simp only [endblockOf]
  omega

/-- Witness for C8 at a concrete configuration. -/
theorem fetch_below_safe_head_witness : ((5 : Nat) : Int) ≤ endblockOf 10 2 :=
  fetch_below_safe_head 4 10 2 [] 5 (by decide)

/-- Claim C10, counterexample: CONFIRMATIONS_BLOCK set to the empty string
is a set environment variable, yet reorg_blocks is bound to the int 10, not
to its string value, because Python or treats the empty string as falsy. -/
theorem reorg_blocks_empty_env_cex :
    reorg_blocks (some "") = PyVal.int 10 ∧ PyVal.int 10 ≠ PyVal.str "" := by decide

/-- Claim C10, amended: with CONFIRMATIONS_BLOCK unset reorg_blocks is the
int 10; with it set to any NONEMPTY string it stays that string, and the
argument expression blockHeight-1-reorg_blocks of source line 208 then
raises TypeError (int minus str), which nothing catches, terminating the
process whenever the reorg branch executes. -/
theorem reorg_blocks_string_type_error (s : String) (hs : s ≠ "") (blockHeight : Int) :
    reorg_blocks none = PyVal.int 10
    ∧ reorg_blocks (some s) = PyVal.str s
    ∧ reorgDeleteBeginArg blockHeight (some s) = Except.error () := by
  refine ⟨rfl, ?_, ?_⟩
  · simp [reorg_blocks, getEnvOr, hs]
  · simp [reorgDeleteBeginArg, reorg_blocks, getEnvOr, hs, pySub]

/-- Witness for the amended C10 at a concrete environment value. -/
theorem reorg_blocks_string_type_error_witness :
    reorg_blocks none = PyVal.int 10
    ∧ reorg_blocks (some "5") = PyVal.str "5"
    ∧ reorgDeleteBeginArg 100 (some "5") = Except.error () :=
  reorg_blocks_string_type_error "5" (by decide) 100

set_option maxRecDepth 8000 in
/-- Claim C4, counterexample: an input that starts with the selector but has
two extra trailing characters beyond the canonical 138.  The code slices
relative to the END of the string, so its extraction differs from the
claimed lower-40-of-first-slot and raw-second-slot fields. -/
theorem decoder_slot_mismatch_cex :
    pyStartsWith cexInput selector = true
    ∧ decodeContract cexInput ≠ (specContractTo cexInput, specContractValue cexInput) := by
  decide

/-- Claim C4, amended: for transfer inputs of the canonical length 138 ("0x",
8 selector characters, two 64-character argument slots) the end-relative
slices of the code coincide with the argument slots: contractTo is "0x" plus
the lower 40 characters of the first slot, contractValue the raw second
slot, and the warning fires exactly when the 24 leading pad characters are
not all zero, without changing the extraction. -/
theorem decoder_canonical_input (s : String)
    (hsel : pyStartsWith s selector = true) (hlen : s.length = 138) :
    decodeContract s = (specContractTo s, specContractValue s)
    ∧ (paddingWarning s = true ↔ specLeadingPad s ≠ zeros24) := by
  have hl : s.toList.length = 138 := hlen
  constructor
  · rw [decodeContract, if_pos hsel]
    have h1 : pySliceNeg s 104 64 = ((s.toList.drop 34).take 40).asString := by
      simp only [pySliceNeg, hl]
      norm_num
    have h2 : pySliceLast s 64 = ((s.toList.drop 74).take 64).asString := by
      have htake : (s.toList.drop 74).take 64 = s.toList.drop 74 :=
        List.take_of_length_le (by simp [hlen])
      rw [htake]
      simp only [pySliceLast, hl]
      norm_num
    rw [h1, h2]
    rfl
  · have h3 : pySliceNeg s 128 104 = specLeadingPad s := by
      simp only [pySliceNeg, specLeadingPad, hl]
      norm_num
    simp only [paddingWarning, hsel, h3]
    simp

set_option maxRecDepth 8000 in
/-- Witness for the amended C4 at a canonical-length input with nonzero pad. -/
theorem decoder_canonical_input_witness :
    decodeContract canonInput = (specContractTo canonInput, specContractValue canonInput)
    ∧ (paddingWarning canonInput = true ↔ specLeadingPad canonInput ≠ zeros24) :=
  decoder_canonical_input canonInput (by decide) (by decide)

/-- Claim C6, counterexample: a catch-up pass over a chain forked below the
safe-head boundary stores blocks 101 and 102 although the parentHash of 102
observed at indexing time differs from the hash of 101 — the continuity
invariant is not enforced for consecutive pairs inside the batch, only at
the boundary. -/
theorem continuity_not_enforced_cex :
    ((syncPass bcex noFail 100 103 0 10 { db := [], latest_hash := "" }).1.db.any
        (fun r => r.block == 101) = true
      ∧ (syncPass bcex noFail 100 103 0 10 { db := [], latest_hash := "" }).1.db.any
        (fun r => r.block == 102) = true)
    ∧ (bcex 102).parentHash ≠ (bcex 101).hash := by decide

/-- Claim C6, amended: continuity is checked only at the safe-head boundary:
when the recorded latest_hash matches the boundary block's parentHash the
rollback branch is skipped and the store is only extended, by rows of the
boundary block itself. -/
theorem boundary_continuity_check (chain : Nat → Block) (failAt : Nat → Nat → Bool)
    (reorg_blocks e : Nat) (st : SyncState)
    (hmatch : st.latest_hash = (chain e).parentHash) :
    ∃ extra, (syncLoopGo chain failAt reorg_blocks (e : Int) [e] st).1.db = st.db ++ extra
      ∧ extra.all (fun r => r.block == (chain e).number) = true := by
  obtain ⟨extra, hdb, hall⟩ := syncInsert_db_prefix chain failAt e st.db
  rw [syncLoopGo, if_neg (by
    rintro ⟨_, hne⟩
    exact hne hmatch)]
  rcases hins : (if 0 < (chain e).transactions.length then
      insertTxsFromBlock (failAt e) (chain e) { db := st.db, fr := none, «to» := none }
    else ({ db := st.db, fr := none, «to» := none }, none)) with ⟨ist, err⟩
  rw [hins] at hdb
  simp only at hdb
  refine ⟨extra, ?_, ?_⟩
  · cases err with
    | none =>
        dsimp only
        rw [syncLoopGo]
        exact hdb
    | some err =>
        dsimp only
        exact hdb
  · rw [List.all_eq_true]
    intro x hx
    simpa using hall x hx

/-- Witness for the amended C6 at a concrete boundary state. -/
theorem boundary_continuity_check_witness :
    ∃ extra, (syncLoopGo wChain noFail 10 ((7 : Nat) : Int) [7]
        { db := [], latest_hash := (wChain 7).parentHash }).1.db = [] ++ extra
      ∧ extra.all (fun r => r.block == (wChain 7).number) = true :=
  boundary_continuity_check wChain noFail 10 7
    { db := [], latest_hash := (wChain 7).parentHash } rfl

/-- Claim C7, counterexample: a store holding blocks 5 and 6 (H = 6), a
restart (tail-trim then one pass) against a fully consistent chain with
head 6 and zero confirmations: the single-height catch-up range makes the
first boundary comparison fail against the empty latest_hash, the rollback
deletes the block-5 row, and the record set strictly below H is changed. -/
theorem restart_single_block_rollback_cex :
    maxBlock wdb7 = some 6
    ∧ rec5 ∈ wdb7 ∧ rec5.block < 6
    ∧ rec5 ∉ (syncPass wChain noFail 1 6 0 10
        { db := tailTrim wdb7, latest_hash := "" }).1.db := by decide

/-- Claim C7, amended: the startup tail-trim deletes exactly the rows of
block H = max(block); and when the catch-up range after the trim spans at
least two heights (so that the boundary is compared against a hash recorded
in the same pass) over a parent-consistent chain, the rows of every block at
or below the post-trim maximum M are exactly preserved by the pass. -/
theorem restart_preserves_below_trim (chain : Nat → Block) (failAt : Nat → Nat → Bool)
    (startBlock H M : Nat) (head conf : Int) (reorg_blocks : Nat) (db : List Record)
    (hnum : ∀ h, (chain h).number = h)
    (hcons : ∀ h, (chain (h + 1)).parentHash = (chain h).hash)
    (hH : maxBlock db = some H)
    (hM : maxBlock (tailTrim db) = some M)
    (hgap : (M : Int) + 2 ≤ endblockOf head conf) :
    (∀ r : Record, (r ∈ tailTrim db ↔ r ∈ db ∧ r.block ≠ H))
    ∧ ∀ r : Record, r.block ≤ M →
        (r ∈ (syncPass chain failAt startBlock head conf reorg_blocks
            { db := tailTrim db, latest_hash := "" }).1.db ↔ r ∈ db ∧ r.block ≠ H) := by
  have htrim : ∀ r : Record, (r ∈ tailTrim db ↔ r ∈ db ∧ r.block ≠ H) := by
    intro r
    rw [tailTrim, hH]
    simp [List.mem_filter]
  refine ⟨htrim, ?_⟩
  intro r hrM
  have hpass := syncLoopGo_preserve chain failAt reorg_blocks (endblockOf head conf) M
    hnum hcons ((endblockOf head conf - (M : Int)).toNat) (M + 1)
    { db := tailTrim db, latest_hash := "" } (Nat.lt_succ_self M)
    (by push_cast; omega)
    (by
      intro habs
      exfalso
      push_cast at habs
      omega) r hrM
  simp only [syncPass, passFetchHeights, hM, Option.getD_some]
  exact hpass.trans (htrim r)

/-- Witness for the amended C7 at a concrete restart over blocks 5 and 6. -/
theorem restart_preserves_below_trim_witness :
    rec5 ∈ (syncPass wChain noFail 1 8 0 10
        { db := tailTrim wdb7, latest_hash := "" }).1.db
      ↔ rec5 ∈ wdb7 ∧ rec5.block ≠ 6 :=
  (restart_preserves_below_trim wChain noFail 1 6 5 8 0 10 wdb7 (fun _ => rfl)
      (fun h => by simp [wChain]) (by decide) (by decide) (by decide)).2 rec5 (by decide)

/-- Claim C9: on the first pass after process start latest_hash is the empty
string (source line 173); when exactly one new block is pending, that block
is the boundary, the comparison against the empty string fails for any real
parent hash, and the pass performs the rollback — deleting the rows of
blocks in (M - reorg_blocks, M] for M = max(block) — even over a fully
parent-consistent chain with no reorganisation. -/
theorem first_pass_spurious_reorg (chain : Nat → Block) (failAt : Nat → Nat → Bool)
    (startBlock reorg_blocks M : Nat) (head conf : Int) (db : List Record)
    (hmax : (maxBlock db).getD startBlock = M)
    (hone : endblockOf head conf = (M : Int) + 1)
    (hhash : (chain (M + 1)).parentHash ≠ "")
    (_hcons : ∀ h, (chain (h + 1)).parentHash = (chain h).hash) :
    syncPass chain failAt startBlock head conf reorg_blocks
        { db := db, latest_hash := "" }
      = ({ db := (delete_last_blocks_from_db db ((M : Int) - reorg_blocks) (M : Int)),
           latest_hash := "" }, none) := by
  have hn : (endblockOf head conf - (M : Int)).toNat = 1 := by omega
  simp only [syncPass, passFetchHeights, hmax, hn]
  rw [show List.range' (M + 1) 1 = [M + 1] from rfl]
  rw [syncLoopGo, if_pos ⟨by omega, Ne.symm hhash⟩, syncLoopGo]
  have hb1 : ((M + 1 : Nat) : Int) - 1 - (reorg_blocks : Int) = (M : Int) - reorg_blocks := by
    push_cast
    ring
  have hb2 : ((M + 1 : Nat) : Int) - 1 = (M : Int) := by
    push_cast
    ring
  rw [hb1, hb2]

/-- Witness for C9 at a concrete consistent chain and store. -/
theorem first_pass_spurious_reorg_witness :
    syncPass wChain noFail 1 6 0 10 { db := [rec5], latest_hash := "" }
      = ({ db := (delete_last_blocks_from_db [rec5] ((5 : Int) - 10) (5 : Int)),
           latest_hash := "" }, none) :=
  first_pass_spurious_reorg wChain noFail 1 10 5 6 0 [rec5] (by decide) (by decide)
    (by decide) (fun h => by simp [wChain])

end EthSync
